import Mathlib

/-!
Verification of the chain-utils repository: a shallow embedding of the four
Go command-line utilities (heimdall hf block calculator, heimdall average
blocktime calculator, bor hf block calculator, bor average blocktime
calculator, heimdall block time estimator) together with proofs of the
specified properties.  Machine integers are modelled as Nat or Int with
explicit wrap where Go wraps; float64 arithmetic on times and averages is
modelled over the rationals; fallible Go functions return Except.
-/

namespace ChainUtils

/-- Models the Go conversion int64(x) applied to a float64 value, which
truncates toward zero. -/
def goTrunc (q : ℚ) : Int := if q < 0 then ⌈q⌉ else ⌊q⌋

/-- Models Go math.Round, which rounds half away from zero. -/
def goRound (q : ℚ) : Int := if q < 0 then -⌊-q + 1/2⌋ else ⌊q + 1/2⌋

/-! ## hexToUint64 (bor hf block calculator and bor average blocktime calculator) -/

/-- Value of one hexadecimal digit character as accepted by the Go
big.Int SetString scanner at base 16: digits 0-9 and letters a-f in either
case.  Returns none for every other character. -/
def hexDigitVal? (c : Char) : Option Nat :=
  if '0' ≤ c ∧ c ≤ '9' then some (c.toNat - 48)
  else if 'a' ≤ c ∧ c ≤ 'f' then some (c.toNat - 97 + 10)
  else if 'A' ≤ c ∧ c ≤ 'F' then some (c.toNat - 65 + 10)
  else none

/-- Accumulating base-16 scan of a digit string, failing on the first
character that is not a hexadecimal digit. -/
def hexAccum : List Char → Nat → Option Nat
  | [], acc => some acc
  | c :: rest, acc =>
    match hexDigitVal? c with
    | none => none
    | some d => hexAccum rest (16 * acc + d)

/-- Models Go big.Int.SetString(s, 16): an optional single leading + or -
sign followed by at least one hexadecimal digit.  With an explicit base no
0x prefix and no underscores are accepted, and a negative zero normalizes
to zero.  Returns none exactly when Go returns ok = false. -/
def setString16? : List Char → Option Int
  | [] => none
  | c :: rest =>
    if c = '+' then
      match rest with
      | [] => none
      | _ =>
        match hexAccum rest 0 with
        | none => none
        | some n => some (n : Int)
    else if c = '-' then
      match rest with
      | [] => none
      | _ =>
        match hexAccum rest 0 with
        | none => none
        | some n => some (-(n : Int))
    else
      match hexAccum (c :: rest) 0 with
      | none => none
      | some n => some (n : Int)

/-- Models the prefix handling of hexToUint64: when the input starts with
the two characters 0x or 0X they are dropped, otherwise the input is kept
unchanged. -/
def strip0x (cs : List Char) : List Char :=
  match cs with
  | a :: b :: rest => if a = '0' ∧ (b = 'x' ∨ b = 'X') then rest else a :: b :: rest
  | _ => cs

/-- Drops the optional single leading sign accepted by the big.Int
SetString scanner. -/
def dropSign : List Char → List Char
  | [] => []
  | c :: rest => if c = '+' ∨ c = '-' then rest else c :: rest

/-- True exactly on the error case of an Except value. -/
def isErr {ε α : Type} : Except ε α → Bool
  | .error _ => true
  | .ok _ => false

/-- The three error shapes produced by hexToUint64: empty hex string,
invalid hex, and out of uint64 range. -/
inductive HexParseError where
  | emptyHex
  | invalidHex (s : String)
  | outOfRange (s : String)
deriving DecidableEq

/-- Lean model of hexToUint64 from the bor calculators: strip an optional
0x or 0X prefix, reject the empty remainder, parse with big.Int SetString
at base 16, reject a negative sign result or a magnitude above 2^64 - 1,
and otherwise return the value. -/
def hexToUint64 (h : String) : Except HexParseError Nat :=
  let cs := strip0x h.data
  if cs = [] then .error .emptyHex
  else
    match setString16? cs with
    | none => .error (.invalidHex (String.mk cs))
    | some v =>
      if v < 0 ∨ 2 ^ 64 - 1 < v then .error (.outOfRange (String.mk cs))
      else .ok v.toNat

/-- Lowercase hexadecimal digit character of a value below 16, as produced
by the %x format verb. -/
def natToHexChar (d : Nat) : Char :=
  if d < 10 then Char.ofNat (48 + d) else Char.ofNat (87 + d)

/-- Digit characters of the lowercase hexadecimal rendering of n, most
significant first, as produced by the %x format verb. -/
def natToHexDigits (n : Nat) : List Char :=
  if _h : n < 16 then [natToHexChar n]
  else natToHexDigits (n / 16) ++ [natToHexChar (n % 16)]
termination_by n
decreasing_by exact Nat.div_lt_self (by omega) (by omega)

/-- Models fmt.Sprintf with the 0x%x format used to render heights for
eth_getBlockByNumber. -/
def toHex (v : Nat) : String := String.mk ('0' :: 'x' :: natToHexDigits v)

/-- Numeric value of a list of hexadecimal digit characters, most
significant first. -/
def hexVal (cs : List Char) : Nat :=
  cs.foldl (fun a c => 16 * a + ((hexDigitVal? c).getD 0)) 0

/-- The string h is a valid hexadecimal rendering of the value v: an
optional 0x or 0X prefix followed by a nonempty run of hexadecimal digit
characters whose value is v. -/
def IsHexRendering (h : String) (v : Nat) : Prop :=
  ∃ ds : List Char, ds ≠ [] ∧ (∀ c ∈ ds, (hexDigitVal? c).isSome = true) ∧ hexVal ds = v ∧
    (h.data = ds ∨ h.data = '0' :: 'x' :: ds ∨ h.data = '0' :: 'X' :: ds)

/-! ## rpcCall (bor hf block calculator and bor average blocktime calculator) -/

/-- Outcome of one attempt against the JSON-RPC endpoint, as distinguished
by the body of the retry loop in rpcCall: transport failure from client.Do,
JSON decode failure, a populated error field in the decoded envelope, or
success with a decoded result. -/
inductive AttemptOutcome (T : Type) where
  | transportErr (msg : String)
  | decodeErr (msg : String)
  | respErr (msg : String)
  | success (val : T)

/-- The message recorded into lastErr when an attempt fails; none for a
successful attempt. -/
def AttemptOutcome.failMsg? {T : Type} : AttemptOutcome T → Option String
  | .transportErr m => some m
  | .decodeErr m => some m
  | .respErr m => some m
  | .success _ => none

/-- The error produced after the retry loop exhausts every attempt,
wrapping the method name, the attempt budget and the last underlying
failure, mirroring the final fmt.Errorf of rpcCall. -/
inductive RpcFailure where
  | exhausted (method : String) (attempts : Nat) (lastErr : Option String)
deriving DecidableEq

/-- Observable trace of one rpcCall invocation: the number of attempts
performed, the sleeps executed in order (in milliseconds), and the final
result. -/
structure RpcOutcome (T : Type) where
  attemptsMade : Nat
  sleepsMs : List Nat
  result : Except RpcFailure T

/-- The retry loop of rpcCall.  The remaining argument counts loop
iterations left, attempt is the 0-indexed loop variable.  Every failed
attempt records its message into lastErr, sleeps retryBackoff multiplied by
attempt + 1, and continues; this includes the failure of the final attempt,
whose sleep happens before the loop condition fails.  A successful attempt
returns the decoded result at once with no further sleep. -/
def rpcLoop {T : Type} (backoffMs : Nat) (endpoint : Nat → AttemptOutcome T) (method : String)
    (maxAttempts : Nat) : Nat → Nat → Option String → List Nat → RpcOutcome T
  | 0, attempt, lastErr, sleeps =>
    ⟨attempt, sleeps, .error (.exhausted method maxAttempts lastErr)⟩
  | remaining + 1, attempt, _lastErr, sleeps =>
    match endpoint attempt with
    | .success v => ⟨attempt + 1, sleeps, .ok v⟩
    | o => rpcLoop backoffMs endpoint method maxAttempts remaining (attempt + 1) o.failMsg?
        (sleeps ++ [backoffMs * (attempt + 1)])

/-- The maxRetries constant of the bor calculators. -/
def maxRetries : Nat := 3

/-- The retryBackoff constant of the bor calculators, in milliseconds. -/
def retryBackoffMs : Nat := 600

/-- Lean model of rpcCall from the bor calculators.  The endpoint argument
gives the outcome each attempt (0-indexed) would observe; request
construction is assumed well formed, since it depends only on the URL and
not on the endpoint behaviour. -/
def rpcCall {T : Type} (endpoint : Nat → AttemptOutcome T) (method : String) : RpcOutcome T :=
  rpcLoop retryBackoffMs endpoint method maxRetries maxRetries 0 none []

/-- An endpoint behaviour whose every attempt fails at transport level. -/
def alwaysFailEp : Nat → AttemptOutcome Nat :=
  fun _ => .transportErr "connection refused"

/-- An endpoint behaviour that fails at transport level on attempts 0 and 1
and succeeds with value 42 on attempt 2. -/
def twoFailThenOkEp : Nat → AttemptOutcome Nat :=
  fun i => if i < 2 then .transportErr "connection refused" else .success 42

/-! ## target.resolve (bor average blocktime calculator) -/

/-- Lean model of the target struct of the bor average blocktime
calculator: a kind tag, a signed delta for relative targets and an absolute
height for absolute targets. -/
structure BlockTarget where
  kind : String
  delta : Int
  value : Nat
deriving DecidableEq

/-- Lean model of target.resolve.  Heights are uint64, so the addition in
the nonnegative-delta branch wraps modulo 2^64 exactly as Go uint64
addition does; a negative delta whose magnitude exceeds the latest height
resolves to the pair (0, false), the skip signal. -/
def BlockTarget.resolve (t : BlockTarget) (n : Nat) : Nat × Bool :=
  if t.kind = "relative" then
    if 0 ≤ t.delta then ((n + t.delta.toNat) % 2 ^ 64, true)
    else
      let d := (-t.delta).toNat
      if n < d then (0, false) else (n - d, true)
  else if t.kind = "absolute" then
    if n < t.value then (0, false) else (t.value, true)
  else (0, false)

/-! ## heimdall average blocktime loop and bor timestamp collection -/

/-- One line of per-lookback output of the heimdall average blocktime
calculator: a SKIP line when the target height is below the earliest
available height, an ERROR line when the fetch fails, or a report carrying
the average seconds per block. -/
inductive LookbackOutcome where
  | skip (lb target earliest : Int)
  | fetchErr (lb target : Int) (msg : String)
  | avgReport (lb target : Int) (avgSeconds : ℚ)
deriving DecidableEq

/-- Loop body of the heimdall average blocktime calculator for one
lookback: compute the target height, skip when it is below the earliest
available height, report an error when the block fetch fails, and
otherwise report elapsed seconds divided by the lookback.  Times are in
seconds. -/
def lookbackStep (latestHeight earliestHeight : Int) (latestTime : ℚ)
    (fetchBlockTime : Int → Except String ℚ) (lb : Int) : LookbackOutcome :=
  let target := latestHeight - lb
  if target < earliestHeight then .skip lb target earliestHeight
  else
    match fetchBlockTime target with
    | .error e => .fetchErr lb target e
    | .ok t0 => .avgReport lb target ((latestTime - t0) / (lb : ℚ))

/-- The whole heimdall lookback loop: one outcome per lookback, each
iteration independent of the failures of the others. -/
def runLookbacks (latestHeight earliestHeight : Int) (latestTime : ℚ)
    (fetchBlockTime : Int → Except String ℚ) (lbs : List Int) : List LookbackOutcome :=
  lbs.map (lookbackStep latestHeight earliestHeight latestTime fetchBlockTime)

/-- Lean model of the timestamp-fetch loop of the bor average blocktime
calculator: each resolved height is fetched in turn; a failure prints a
warning and continues, a success is recorded into the infos map, modelled
as an association list in fetch order. -/
def borCollectInfos (fetchTS : Nat → Except String Nat) (heights : List Nat) :
    List (Nat × Nat) :=
  heights.foldl (fun acc h =>
    match fetchTS h with
    | .ok ts => acc ++ [(h, ts)]
    | .error _ => acc) []

/-- A block-time oracle for the skip scenario: only height 50 is
reachable, with block time 1704067100 seconds; every other height is
unreachable. -/
def scenarioFetch : Int → Except String ℚ :=
  fun t => if t = 50 then .ok 1704067100 else .error "unreachable"

/-- A timestamp oracle for the bor collection scenario: only height 50 is
reachable, with timestamp 1704067100; every other height fails. -/
def scenarioFetchTS : Nat → Except String Nat :=
  fun hgt => if hgt = 50 then .ok 1704067100 else .error "unreachable"

/-! ## future height predictors and block time estimator -/

/-- Output of the prediction part of the heimdall hf block calculator:
either the message that the target time is in the past, or the predicted
block count and height. -/
inductive HfOutcome where
  | pastMessage (targetTime : ℚ)
  | predicted (blocksToAdd : Int) (height : Int)
deriving DecidableEq

/-- Lean model of the future block calculation of the heimdall hf block
calculator: delta is target minus latest time; a negative delta prints the
in-the-past message and returns; otherwise blocksToAdd is the truncated
quotient of delta by the average block time and the predicted height is
the latest height plus blocksToAdd. -/
def heimdallHfMain (latestHeight : Int) (latestTime targetTime avgBlockTime : ℚ) : HfOutcome :=
  let delta := targetTime - latestTime
  if delta < 0 then .pastMessage targetTime
  else
    let blocksToAdd := goTrunc (delta / avgBlockTime)
    .predicted blocksToAdd (latestHeight + blocksToAdd)

/-- Lean model of the clamp in the bor hf block calculator: predicted is
int64(n) plus blocksRounded, reset to 0 when negative. -/
def clampPredicted (n : Nat) (blocksRounded : Int) : Int :=
  let predicted := (n : Int) + blocksRounded
  if predicted < 0 then 0 else predicted

/-- Printed report of the bor hf block calculator: the signed time delta
in seconds, the rounded block delta, and the predicted height, which is
always printed, also for targets in the past. -/
structure BorHfReport where
  deltaSeconds : ℚ
  blocksRounded : Int
  predictedHeight : Int
deriving DecidableEq

/-- Lean model of steps 3 to 6 of the bor hf block calculator: the delta
may be negative, blocksRounded is the rounded quotient by the average
block time, and the predicted height is clamped at zero and always
emitted. -/
def borHfMain (n : Nat) (nowTime targetTime avg : ℚ) : BorHfReport :=
  let delta := targetTime - nowTime
  let blocksRounded := goRound (delta / avg)
  ⟨delta, blocksRounded, clampPredicted n blocksRounded⟩

/-- Report of the heimdall block time estimator: the average block time
over the 2000-block window, the blocks left to the target, the exact
seconds left, and the estimated time actually printed. -/
structure EstimatorReport where
  avgBlockTime : ℚ
  blocksLeft : Int
  secondsLeft : ℚ
  estimatedTime : ℚ
deriving DecidableEq

/-- Lean model of the computation of the heimdall block time estimator:
average block time over 2000 blocks, seconds left as average times blocks
left, and the estimated time obtained by adding the Duration conversion of
seconds left, which truncates toward zero to whole seconds. -/
def estimatorMain (h1 : Int) (t1 t2 : ℚ) (targetBlock : Int) : EstimatorReport :=
  let avgBlockTime := (t1 - t2) / 2000
  let blocksLeft := targetBlock - h1
  let secondsLeft := avgBlockTime * (blocksLeft : ℚ)
  ⟨avgBlockTime, blocksLeft, secondsLeft, t1 + ((goTrunc secondsLeft : Int) : ℚ)⟩

/-! ## Lemmas about the retry loop -/

/-- A failed attempt makes the loop record its message, sleep backoff times
attempt + 1, and continue with the next attempt. -/
theorem rpcLoop_failStep {T : Type} (b : Nat) (ep : Nat → AttemptOutcome T) (m : String)
    (ma r a : Nat) (le : Option String) (s : List Nat)
    (hfail : ((ep a).failMsg?).isSome = true) :
    rpcLoop b ep m ma (r + 1) a le s =
      rpcLoop b ep m ma r (a + 1) (ep a).failMsg? (s ++ [b * (a + 1)]) := by
  cases h : ep a with
  | success v => rw [h] at hfail; simp [AttemptOutcome.failMsg?] at hfail
  | transportErr msg => simp [rpcLoop, h, AttemptOutcome.failMsg?]
  | decodeErr msg => simp [rpcLoop, h, AttemptOutcome.failMsg?]
  | respErr msg => simp [rpcLoop, h, AttemptOutcome.failMsg?]

/-- A successful attempt returns the decoded result at once, with no
further sleep and no further attempt. -/
theorem rpcLoop_successStep {T : Type} (b : Nat) (ep : Nat → AttemptOutcome T) (m : String)
    (ma r a : Nat) (le : Option String) (s : List Nat) (v : T)
    (hok : ep a = .success v) :
    rpcLoop b ep m ma (r + 1) a le s = ⟨a + 1, s, .ok v⟩ := by
  simp [rpcLoop, hok]

/-- C1 (amended): for every endpoint behaviour in which all three attempts
fail, rpcCall makes exactly maxAttempts = 3 attempts and fails with the
exhaustion error wrapping the last underlying failure; attempt i sleeps
backoffUnit * (i + 1) after each failure, including after the final failed
attempt, so the sleeps are [600, 1200, 1800] milliseconds and the total
elapsed backoff is at least backoffUnit * (1 + 2). -/
theorem rpcCall_allFail {T : Type} (ep : Nat → AttemptOutcome T) (m : String)
    (hfail : ∀ i, i < 3 → ((ep i).failMsg?).isSome = true) :
    (rpcCall ep m).attemptsMade = 3 ∧
    (rpcCall ep m).result = .error (.exhausted m 3 (ep 2).failMsg?) ∧
    (rpcCall ep m).sleepsMs = [600, 1200, 1800] ∧
    retryBackoffMs * (1 + 2) ≤ (rpcCall ep m).sleepsMs.sum := by
  have key : rpcCall ep m = ⟨3, [600, 1200, 1800], .error (.exhausted m 3 (ep 2).failMsg?)⟩ := by
    show rpcLoop 600 ep m 3 3 0 none [] = _
    rw [rpcLoop_failStep 600 ep m 3 2 0 none [] (hfail 0 (by omega)),
      rpcLoop_failStep 600 ep m 3 1 1 _ _ (hfail 1 (by omega)),
      rpcLoop_failStep 600 ep m 3 0 2 _ _ (hfail 2 (by omega))]
    rfl
  rw [key]
  exact ⟨rfl, rfl, rfl, by simp [retryBackoffMs]⟩

/-- Witness for C1: a concrete endpoint failing transport on every attempt
exhausts the three attempts with sleeps 600, 1200 and 1800 ms. -/
theorem rpcCall_allFail_witness :
    (rpcCall alwaysFailEp "eth_blockNumber").attemptsMade = 3 ∧
    (rpcCall alwaysFailEp "eth_blockNumber").result =
      .error (.exhausted "eth_blockNumber" 3 (alwaysFailEp 2).failMsg?) ∧
    (rpcCall alwaysFailEp "eth_blockNumber").sleepsMs = [600, 1200, 1800] ∧
    retryBackoffMs * (1 + 2) ≤ (rpcCall alwaysFailEp "eth_blockNumber").sleepsMs.sum :=
  rpcCall_allFail alwaysFailEp "eth_blockNumber" (fun _ _ => rfl)

/-- C1 counterexample: with an endpoint that always fails, the trace of
rpcCall records three sleeps, one after every failed attempt including the
final one, so the sleeps list is [600, 1200, 1800] and not the [600, 1200]
that the no-sleep-after-the-final-attempt description would give. -/
theorem rpcCall_sleepsAfterFinal_cex :
    (rpcCall alwaysFailEp "eth_blockNumber").sleepsMs = [600, 1200, 1800] ∧
    (rpcCall alwaysFailEp "eth_blockNumber").sleepsMs ≠ [600, 1200] :=
  ⟨rfl, by decide⟩

/-- C2: for every endpoint behaviour failing at transport level on the
first two attempts and succeeding on the third, rpcCall returns the decoded
result of the successful response and makes exactly three attempts. -/
theorem rpcCall_failFailOk {T : Type} (ep : Nat → AttemptOutcome T) (m : String) (v : T)
    (e0 e1 : String) (h0 : ep 0 = .transportErr e0) (h1 : ep 1 = .transportErr e1)
    (h2 : ep 2 = .success v) :
    (rpcCall ep m).result = .ok v ∧ (rpcCall ep m).attemptsMade = 3 := by
  have key : rpcCall ep m = ⟨3, [600, 1200], .ok v⟩ := by
    show rpcLoop 600 ep m 3 3 0 none [] = _
    rw [rpcLoop_failStep 600 ep m 3 2 0 none [] (by rw [h0]; rfl),
      rpcLoop_failStep 600 ep m 3 1 1 _ _ (by rw [h1]; rfl),
      rpcLoop_successStep 600 ep m 3 0 2 _ _ v h2]
    rfl
  rw [key]
  exact ⟨rfl, rfl⟩

/-- Witness for C2: a concrete endpoint failing twice and succeeding with
42 on the third attempt makes rpcCall return 42 after exactly three
attempts. -/
theorem rpcCall_failFailOk_witness :
    (rpcCall twoFailThenOkEp "eth_blockNumber").result = .ok 42 ∧
    (rpcCall twoFailThenOkEp "eth_blockNumber").attemptsMade = 3 :=
  rpcCall_failFailOk twoFailThenOkEp "eth_blockNumber" 42
    "connection refused" "connection refused" rfl rfl rfl

/-! ## Lemmas about hexadecimal parsing -/

/-- When every character is a hexadecimal digit the scan succeeds and
computes the base-16 left fold. -/
theorem hexAccum_all (cs : List Char) :
    ∀ a : Nat, (∀ c ∈ cs, ((hexDigitVal? c)).isSome = true) →
      hexAccum cs a = some (cs.foldl (fun x c => 16 * x + ((hexDigitVal? c).getD 0)) a) := by
  induction cs with
  | nil => intro a _; rfl
  | cons c rest ih =>
    intro a h
    have hc := h c (by simp)
    cases hd : hexDigitVal? c with
    | none => rw [hd] at hc; simp at hc
    | some d =>
      simp only [hexAccum, hd, List.foldl_cons]
      rw [ih _ (fun x hx => h x (by simp [hx]))]
      simp [hd]

/-- A single character that is not a hexadecimal digit makes the whole
scan fail. -/
theorem hexAccum_bad (cs : List Char) :
    ∀ a : Nat, (∃ c ∈ cs, hexDigitVal? c = none) → hexAccum cs a = none := by
  induction cs with
  | nil => rintro a ⟨c, hc, _⟩; simp at hc
  | cons c rest ih =>
    rintro a ⟨x, hx, hxnone⟩
    rcases List.mem_cons.mp hx with rfl | hxr
    · simp [hexAccum, hxnone]
    · cases hd : hexDigitVal? c with
      | none => simp [hexAccum, hd]
      | some d =>
        simp only [hexAccum, hd]
        exact ih _ ⟨x, hxr, hxnone⟩

/-- A run of hexadecimal digits never starts with the two-character 0x or
0X prefix, so the strip leaves it unchanged. -/
theorem strip0x_all (cs : List Char)
    (h : ∀ c ∈ cs, ((hexDigitVal? c)).isSome = true) : strip0x cs = cs := by
  rcases cs with _ | ⟨a, _ | ⟨b, rest⟩⟩
  · rfl
  · rfl
  · simp only [strip0x]
    rw [if_neg]
    rintro ⟨-, hb⟩
    have hmem := h b (by simp)
    rcases hb with rfl | rfl <;> exact absurd hmem (by decide)

/-- On a nonempty run of hexadecimal digits the SetString scanner returns
the base-16 value. -/
theorem setString16_all (cs : List Char) (hne : cs ≠ [])
    (h : ∀ c ∈ cs, ((hexDigitVal? c)).isSome = true) :
    setString16? cs = some ((hexVal cs : Nat) : Int) := by
  rcases cs with _ | ⟨c, rest⟩
  · exact absurd rfl hne
  · have hc := h c (by simp)
    have hcp : ¬ c = '+' := by rintro rfl; exact absurd hc (by decide)
    have hcm : ¬ c = '-' := by rintro rfl; exact absurd hc (by decide)
    simp only [setString16?, if_neg hcp, if_neg hcm]
    rw [hexAccum_all _ _ h]
    rfl

/-- When a character after the optional sign is not a hexadecimal digit
the SetString scanner fails; it also fails on a lone sign. -/
theorem setString16_none (cs : List Char)
    (hbad : ∃ c ∈ dropSign cs, hexDigitVal? c = none) : setString16? cs = none := by
  rcases cs with _ | ⟨c0, rest⟩
  · rfl
  · rcases hbad with ⟨c, hc, hcnone⟩
    by_cases hp : c0 = '+'
    · subst hp
      simp only [dropSign, if_true, eq_self_iff_true, true_or] at hc
      rcases rest with _ | ⟨r0, rs⟩
      · simp at hc
      · have hbad2 := hexAccum_bad (r0 :: rs) 0 ⟨c, hc, hcnone⟩
        simp [setString16?, hbad2]
    · by_cases hm : c0 = '-'
      · subst hm
        simp only [dropSign, if_true, eq_self_iff_true, or_true] at hc
        rcases rest with _ | ⟨r0, rs⟩
        · simp at hc
        · have hbad2 := hexAccum_bad (r0 :: rs) 0 ⟨c, hc, hcnone⟩
          simp [setString16?, hbad2]
      · have hcond : ¬ (c0 = '+' ∨ c0 = '-') := by tauto
        simp only [dropSign, if_neg hcond] at hc
        have hbad2 := hexAccum_bad (c0 :: rest) 0 ⟨c, hc, hcnone⟩
        simp [setString16?, hp, hm, hbad2]

/-- The hexadecimal digit character of a value below 16 scans back to that
value. -/
theorem natToHexChar_val (d : Nat) (hd : d < 16) :
    hexDigitVal? (natToHexChar d) = some d := by
  interval_cases d <;> decide

/-- The hexadecimal rendering of a natural number is never empty. -/
theorem natToHexDigits_ne_nil (n : Nat) : natToHexDigits n ≠ [] := by
  rw [natToHexDigits.eq_def]
  split <;> simp

/-- Every character of the hexadecimal rendering of a natural number is a
hexadecimal digit. -/
theorem natToHexDigits_all (n : Nat) :
    ∀ c ∈ natToHexDigits n, ((hexDigitVal? c)).isSome = true := by
  induction n using Nat.strong_induction_on with
  | _ n ih =>
    rw [natToHexDigits.eq_def]
    split
    · next hlt =>
      intro c hc
      rw [List.mem_singleton] at hc
      subst hc
      rw [natToHexChar_val n hlt]
      rfl
    · next hge =>
      intro c hc
      rcases List.mem_append.mp hc with hc | hc
      · exact ih (n / 16) (Nat.div_lt_self (by omega) (by omega)) c hc
      · rw [List.mem_singleton] at hc
        subst hc
        rw [natToHexChar_val _ (Nat.mod_lt _ (by omega))]
        rfl

/-- The base-16 value of the hexadecimal rendering of n is n. -/
theorem hexVal_natToHexDigits (n : Nat) : hexVal (natToHexDigits n) = n := by
  induction n using Nat.strong_induction_on with
  | _ n ih =>
    rw [natToHexDigits.eq_def]
    split
    · next hlt => simp [hexVal, natToHexChar_val n hlt]
    · next hge =>
      have hsplit : hexVal (natToHexDigits (n / 16) ++ [natToHexChar (n % 16)]) =
          16 * hexVal (natToHexDigits (n / 16)) + ((hexDigitVal? (natToHexChar (n % 16))).getD 0) := by
        simp [hexVal, List.foldl_append]
      rw [hsplit, ih (n / 16) (Nat.div_lt_self (by omega) (by omega)),
        natToHexChar_val _ (Nat.mod_lt _ (by omega))]
      simp
      omega

/-- Core success lemma for hexToUint64: on any valid rendering of a value
in uint64 range it succeeds with that value. -/
theorem hexToUint64_core (v : Nat) (ds : List Char) (hv : v < 2 ^ 64)
    (hne : ds ≠ []) (hhex : ∀ c ∈ ds, ((hexDigitVal? c)).isSome = true)
    (hval : hexVal ds = v) :
    ∀ h : String, (h.data = ds ∨ h.data = '0' :: 'x' :: ds ∨ h.data = '0' :: 'X' :: ds) →
      hexToUint64 h = .ok v := by
  intro h hcase
  have hstrip : strip0x h.data = ds := by
    rcases hcase with hc | hc | hc <;> rw [hc]
    · exact strip0x_all ds hhex
    · simp [strip0x]
    · simp [strip0x]
  simp only [hexToUint64, hstrip]
  rw [if_neg hne, setString16_all ds hne hhex, hval]
  have hcond : ¬ ((v : Int) < 0 ∨ (2 : Int) ^ 64 - 1 < (v : Int)) := by push_cast; omega
  simp [hcond]
  omega

/-- C3: for every natural number v below 2^64 and every valid hexadecimal
rendering h of v, optionally prefixed with 0x, hexToUint64 h succeeds and
returns v; in particular hexToUint64 (toHex v) = v for all such v. -/
theorem hexToUint64_roundTrip :
    (∀ (v : Nat) (h : String), v < 2 ^ 64 → IsHexRendering h v → hexToUint64 h = .ok v) ∧
    (∀ v : Nat, v < 2 ^ 64 → hexToUint64 (toHex v) = .ok v) := by
  constructor
  · rintro v h hv ⟨ds, hne, hhex, hval, hcase⟩
    exact hexToUint64_core v ds hv hne hhex hval h hcase
  · intro v hv
    exact hexToUint64_core v (natToHexDigits v) hv (natToHexDigits_ne_nil v)
      (natToHexDigits_all v) (hexVal_natToHexDigits v) (toHex v) (Or.inr (Or.inl rfl))

/-- Witness for C3: the rendering 0xff of 255 parses back to 255, and the
round trip through toHex holds at 255. -/
theorem hexToUint64_roundTrip_witness :
    hexToUint64 "0xff" = .ok 255 ∧ hexToUint64 (toHex 255) = .ok 255 :=
  ⟨hexToUint64_roundTrip.1 255 "0xff" (by decide)
      ⟨['f', 'f'], by decide, by decide, by decide, Or.inr (Or.inl (by decide))⟩,
    hexToUint64_roundTrip.2 255 (by decide)⟩

/-- C4 counterexample: the input -0 carries a negative sign, yet
hexToUint64 succeeds on it with value 0, because the big.Int scanner
normalizes a negative zero to zero and the sign check tests Sign, which is
0 there. -/
theorem hexToUint64_negZero_cex : hexToUint64 "-0" = .ok 0 := rfl

/-- C4 (amended): hexToUint64 fails on the empty string and on a bare 0x
prefix; on any input that, after the optional 0x prefix and an optional
single leading + or - sign, contains a character that is not a hexadecimal
digit; on a lone sign; on any negative-signed input whose digits denote a
nonzero value (a signed zero such as -0 succeeds with value 0); and on any
rendering whose magnitude exceeds 2^64 - 1. -/
theorem hexToUint64_failureCases :
    hexToUint64 "" = .error .emptyHex ∧
    hexToUint64 "0x" = .error .emptyHex ∧
    hexToUint64 "xyz" = .error (.invalidHex "xyz") ∧
    hexToUint64 "+" = .error (.invalidHex "+") ∧
    (∀ h : String, (∃ c ∈ dropSign (strip0x h.data), hexDigitVal? c = none) →
      isErr (hexToUint64 h) = true) ∧
    (∀ (h : String) (ds : List Char), h.data = '-' :: ds → ds ≠ [] →
      (∀ c ∈ ds, ((hexDigitVal? c)).isSome = true) → 0 < hexVal ds →
      hexToUint64 h = .error (.outOfRange (String.mk ('-' :: ds)))) ∧
    (∀ (v : Nat) (h : String), 2 ^ 64 ≤ v → IsHexRendering h v →
      isErr (hexToUint64 h) = true) := by
  refine ⟨rfl, rfl, rfl, rfl, ?_, ?_, ?_⟩
  · rintro h ⟨c, hc, hcnone⟩
    rcases hcs : strip0x h.data with _ | ⟨c0, rest⟩
    · rw [hcs] at hc
      simp [dropSign] at hc
    · rw [hcs] at hc
      simp only [hexToUint64, hcs]
      rw [if_neg (by simp)]
      rw [setString16_none _ ⟨c, hc, hcnone⟩]
      rfl
  · intro h ds hdata hne hhex hpos
    have hstrip : strip0x h.data = '-' :: ds := by
      rw [hdata]
      rcases ds with _ | ⟨b, rest⟩
      · rfl
      · simp only [strip0x]
        rw [if_neg]
        rintro ⟨hminus, -⟩
        exact absurd hminus (by decide)
    have hrest : setString16? ('-' :: ds) = some (-(hexVal ds : Int)) := by
      rcases ds with _ | ⟨d0, drest⟩
      · exact absurd rfl hne
      · have hacc := hexAccum_all (d0 :: drest) 0 hhex
        simp [setString16?, hacc, hexVal]
    have hneg : (-(hexVal ds : Int)) < 0 ∨ (2 : Int) ^ 64 - 1 < -(hexVal ds : Int) :=
      Or.inl (neg_lt_zero.mpr (by exact_mod_cast hpos))
    simp only [hexToUint64, hstrip]
    rw [if_neg (by simp)]
    rw [hrest]
    show (if (-(hexVal ds : Int)) < 0 ∨ (2 : Int) ^ 64 - 1 < -(hexVal ds : Int) then
        Except.error (HexParseError.outOfRange (String.mk ('-' :: ds)))
      else Except.ok (-(hexVal ds : Int)).toNat) =
      Except.error (HexParseError.outOfRange (String.mk ('-' :: ds)))
    rw [if_pos hneg]
  · rintro v h hv ⟨ds, hne, hhex, hval, hcase⟩
    have hstrip : strip0x h.data = ds := by
      rcases hcase with hc | hc | hc <;> rw [hc]
      · exact strip0x_all ds hhex
      · simp [strip0x]
      · simp [strip0x]
    have hbig : ((v : Int) < 0 ∨ (2 : Int) ^ 64 - 1 < (v : Int)) :=
      Or.inr (by push_cast; omega)
    simp only [hexToUint64, hstrip]
    rw [if_neg hne, setString16_all ds hne hhex, hval]
    show isErr (if (v : Int) < 0 ∨ (2 : Int) ^ 64 - 1 < (v : Int) then
        Except.error (HexParseError.outOfRange (String.mk ds))
      else Except.ok ((v : Int)).toNat) = true
    rw [if_pos hbig]
    rfl

/-- Witness for C4: concrete instances of every failure family, including
a stray character, a negative nonzero value and the first value above the
uint64 range. -/
theorem hexToUint64_failureCases_witness :
    isErr (hexToUint64 "zz") = true ∧
    hexToUint64 "-1" = .error (.outOfRange (String.mk ['-', '1'])) ∧
    isErr (hexToUint64 "10000000000000000") = true :=
  ⟨hexToUint64_failureCases.2.2.2.2.1 "zz" (by decide),
    hexToUint64_failureCases.2.2.2.2.2.1 "-1" ['1'] (by decide) (by decide) (by decide) (by decide),
    hexToUint64_failureCases.2.2.2.2.2.2 (2 ^ 64) "10000000000000000" (by decide)
      ⟨['1', '0', '0', '0', '0', '0', '0', '0', '0', '0', '0', '0', '0', '0', '0', '0', '0'],
        by decide, by decide, by decide, Or.inl (by decide)⟩⟩

/-! ## Lemmas about the Go rounding helpers -/

/-- For a nonnegative quotient the Go int64 conversion truncates toward
zero, which is the floor. -/
theorem goTrunc_eq_floor (q : ℚ) (h : 0 ≤ q) : goTrunc q = ⌊q⌋ :=
  if_neg (not_lt.mpr h)

/-- For a nonnegative quotient Go math.Round agrees with rounding half
up. -/
theorem goRound_eq_round (q : ℚ) (h : 0 ≤ q) : goRound q = round q := by
  rw [goRound, if_neg (not_lt.mpr h), round_eq]

/-- Rounding preserves nonnegativity. -/
theorem round_nonneg_of (q : ℚ) (h : 0 ≤ q) : (0 : Int) ≤ round q := by
  rw [round_eq]
  exact Int.le_floor.mpr (by push_cast; linarith)

/-! ## Claims about target resolution and the lookback loops -/

/-- C5: LookbackTarget resolution is a pure function of the target and the
latest height: with latest 1000, a relative delta of -2000 resolves to the
skip signal, -500 resolves to 500 and 0 resolves to 1000; in general a
relative offset that would underflow below zero resolves to the skip
signal, and in the heimdall loop a target height below the earliest
available height yields the SKIP outcome. -/
theorem resolve_spec :
    BlockTarget.resolve ⟨"relative", -2000, 0⟩ 1000 = (0, false) ∧
    BlockTarget.resolve ⟨"relative", -500, 0⟩ 1000 = (500, true) ∧
    BlockTarget.resolve ⟨"relative", 0, 0⟩ 1000 = (1000, true) ∧
    (∀ (n : Nat) (d : Int), d < 0 → (n : Int) + d < 0 →
      BlockTarget.resolve ⟨"relative", d, 0⟩ n = (0, false)) ∧
    (∀ (lh eh : Int) (lt : ℚ) (fetch : Int → Except String ℚ) (lb : Int),
      lh - lb < eh → lookbackStep lh eh lt fetch lb = .skip lb (lh - lb) eh) := by
  refine ⟨by decide, by decide, by decide, ?_, ?_⟩
  · intro n d hd hsum
    have h1 : ¬ (0 ≤ d) := not_le.mpr hd
    have h2 : n < (-d).toNat := by omega
    simp [BlockTarget.resolve, h1, h2]
  · intro lh eh lt fetch lb hskip
    simp only [lookbackStep]
    rw [if_pos hskip]

/-- Witness for C5: a relative delta of -700 against latest height 600
underflows and resolves to the skip signal, and a lookback of 2000 against
latest height 1000 with earliest height 1 is skipped. -/
theorem resolve_spec_witness :
    BlockTarget.resolve ⟨"relative", -700, 0⟩ 600 = (0, false) ∧
    lookbackStep 1000 1 0 (fun _ => .error "unreachable") 2000 =
      .skip 2000 (1000 - 2000) 1 :=
  ⟨resolve_spec.2.2.2.1 600 (-700) (by decide) (by decide),
    resolve_spec.2.2.2.2 1000 1 0 (fun _ => .error "unreachable") 2000 (by decide)⟩

/-- Helper for the bor collection loop: an element already collected, or
present in the remaining heights with a successful fetch, appears in the
final fold. -/
theorem borFold_mem (fetch : Nat → Except String Nat) (h ts : Nat) :
    ∀ (heights : List Nat) (acc : List (Nat × Nat)),
      ((h, ts) ∈ acc ∨ (h ∈ heights ∧ fetch h = .ok ts)) →
      (h, ts) ∈ heights.foldl (fun acc2 x =>
        match fetch x with
        | .ok v => acc2 ++ [(x, v)]
        | .error _ => acc2) acc := by
  intro heights
  induction heights with
  | nil =>
    rintro acc (hin | ⟨hmem, -⟩)
    · exact hin
    · simp at hmem
  | cons x xs ih =>
    rintro acc (hin | ⟨hmem, hfetch⟩)
    · rw [List.foldl_cons]
      apply ih
      left
      cases hfx : fetch x with
      | ok v => simp [hin]
      | error e => simp [hin]
    · rcases List.mem_cons.mp hmem with rfl | hxs
      · rw [List.foldl_cons]
        apply ih
        left
        simp [hfetch]
      · rw [List.foldl_cons]
        apply ih
        right
        exact ⟨hxs, hfetch⟩

/-- C8: in the average blocktime runs a fetch failure for a secondary
lookback target is non-fatal: every lookback yields exactly one outcome,
each outcome appears in the output of the run independently of the others,
the concrete scenario with an unreachable reference 2000 blocks back is
skipped while the remaining targets still report, and in the bor variant
every successfully fetched height is recorded despite failures of the
others. -/
theorem lookbackRun_nonFatal :
    (∀ (lh eh : Int) (lt : ℚ) (fetch : Int → Except String ℚ) (lbs : List Int),
      (runLookbacks lh eh lt fetch lbs).length = lbs.length) ∧
    (∀ (lh eh : Int) (lt : ℚ) (fetch : Int → Except String ℚ) (lbs : List Int) (lb : Int),
      lb ∈ lbs → lookbackStep lh eh lt fetch lb ∈ runLookbacks lh eh lt fetch lbs) ∧
    runLookbacks 100 1 1704067200 scenarioFetch [2000, 60, 50] =
      [.skip 2000 (-1900) 1, .fetchErr 60 40 "unreachable", .avgReport 50 50 2] ∧
    (∀ (fetch : Nat → Except String Nat) (heights : List Nat) (h ts : Nat),
      h ∈ heights → fetch h = .ok ts → (h, ts) ∈ borCollectInfos fetch heights) := by
  refine ⟨?_, ?_, ?_, ?_⟩
  · intro lh eh lt fetch lbs
    simp [runLookbacks]
  · intro lh eh lt fetch lbs lb hmem
    exact List.mem_map_of_mem _ hmem
  · simp only [runLookbacks, List.map_cons, List.map_nil]
    norm_num [lookbackStep, scenarioFetch]
  · intro fetch heights h ts hmem hfetch
    exact borFold_mem fetch h ts heights [] (Or.inr ⟨hmem, hfetch⟩)

/-- Witness for C8: with latest height 100 and a reachable block at height
50, the run over lookbacks 2000 and 50 yields two outcomes, the outcome of
lookback 50 appears in the output, and the bor collection records height
50 although height 100 is unreachable. -/
theorem lookbackRun_nonFatal_witness :
    (runLookbacks 100 1 1704067200 scenarioFetch [2000, 50]).length = 2 ∧
    lookbackStep 100 1 1704067200 scenarioFetch 50 ∈
      runLookbacks 100 1 1704067200 scenarioFetch [2000, 50] ∧
    (50, 1704067100) ∈ borCollectInfos scenarioFetchTS [100, 50] :=
  ⟨lookbackRun_nonFatal.1 100 1 1704067200 scenarioFetch [2000, 50],
    lookbackRun_nonFatal.2.1 100 1 1704067200 scenarioFetch [2000, 50] 50 (by decide),
    lookbackRun_nonFatal.2.2.2 scenarioFetchTS [100, 50] 50 1704067100 (by decide) rfl⟩

/-! ## Claims about the future height predictors -/

/-- C6 counterexample: in the rounding-variant predictor a target 100
seconds in the past still produces a predicted height, 950, instead of a
terminal in-the-past outcome with no prediction. -/
theorem borHf_pastTarget_cex :
    (borHfMain 1000 100 0 2).deltaSeconds < 0 ∧
    (borHfMain 1000 100 0 2).predictedHeight = 950 := by
  constructor
  · show (0 : ℚ) - 100 < 0
    norm_num
  · show clampPredicted 1000 (goRound (((0 : ℚ) - 100) / 2)) = 950
    have h1 : (((0 : ℚ) - 100) / 2) = -50 := by norm_num
    have h2 : goRound (-50 : ℚ) = -50 := by
      rw [goRound, if_pos (by norm_num)]
      have h3 : ⌊-(-50 : ℚ) + 1/2⌋ = 50 := by norm_num [Int.floor_eq_iff]
      rw [h3]
    rw [h1, h2]
    decide

/-- C6 (amended): the floor-variant predictor treats a negative time delta
as a recognized non-error terminal condition, emitting the in-the-past
message and no predicted height; the rounding variant emits a clamped
predicted height even for past targets. -/
theorem heimdallHf_pastIsTerminal (H : Int) (lt tt avg : ℚ) (hpast : tt - lt < 0) :
    heimdallHfMain H lt tt avg = .pastMessage tt := by
  simp only [heimdallHfMain]
  rw [if_pos hpast]

/-- Witness for C6: with latest time 100 and target time 0 the floor
variant reports the in-the-past outcome. -/
theorem heimdallHf_pastIsTerminal_witness :
    heimdallHfMain 1000 100 0 2 = .pastMessage 0 :=
  heimdallHf_pastIsTerminal 1000 100 0 2 (by norm_num)

/-- C7: for every latest pair, target at or after the latest time, and
positive average block time, the floor variant computes blocksToAdd as the
floor of the quotient and the rounding variant as the round of the
quotient, each adding it to the latest height; in particular with latest
(1000, t = 0), target 86400 seconds later and average 2.0, blocksToAdd is
43200 and the predicted height is 44200. -/
theorem hfPrediction_formula :
    (∀ (H : Int) (lt tt avg : ℚ), lt ≤ tt → 0 < avg →
      heimdallHfMain H lt tt avg = .predicted ⌊(tt - lt) / avg⌋ (H + ⌊(tt - lt) / avg⌋)) ∧
    (∀ (n : Nat) (lt tt avg : ℚ), lt ≤ tt → 0 < avg →
      borHfMain n lt tt avg =
        ⟨tt - lt, round ((tt - lt) / avg), (n : Int) + round ((tt - lt) / avg)⟩) ∧
    heimdallHfMain 1000 0 86400 2 = .predicted 43200 44200 ∧
    borHfMain 1000 0 86400 2 = ⟨86400, 43200, 44200⟩ := by
  have hq : ∀ (lt tt avg : ℚ), lt ≤ tt → 0 < avg → (0 : ℚ) ≤ (tt - lt) / avg :=
    fun lt tt avg h1 h2 => div_nonneg (by linarith) (le_of_lt h2)
  refine ⟨?_, ?_, ?_, ?_⟩
  · intro H lt tt avg h1 h2
    simp only [heimdallHfMain]
    rw [if_neg (not_lt.mpr (by linarith : (0 : ℚ) ≤ tt - lt))]
    rw [goTrunc_eq_floor _ (hq lt tt avg h1 h2)]
  · intro n lt tt avg h1 h2
    simp only [borHfMain, clampPredicted]
    rw [goRound_eq_round _ (hq lt tt avg h1 h2)]
    rw [if_neg (not_lt.mpr (add_nonneg (Int.natCast_nonneg n)
      (round_nonneg_of _ (hq lt tt avg h1 h2))))]
  · simp only [heimdallHfMain]
    rw [if_neg (by norm_num : ¬ ((86400 : ℚ) - 0 < 0))]
    have h1 : ((86400 : ℚ) - 0) / 2 = 43200 := by norm_num
    have h2 : goTrunc (43200 : ℚ) = 43200 := by
      rw [goTrunc, if_neg (by norm_num)]
      norm_num
    rw [h1, h2]
    norm_num
  · show BorHfReport.mk ((86400 : ℚ) - 0) (goRound (((86400 : ℚ) - 0) / 2))
      (clampPredicted 1000 (goRound (((86400 : ℚ) - 0) / 2))) = ⟨86400, 43200, 44200⟩
    have h1 : ((86400 : ℚ) - 0) / 2 = 43200 := by norm_num
    have h2 : goRound (43200 : ℚ) = 43200 := by
      rw [goRound, if_neg (by norm_num)]
      norm_num [Int.floor_eq_iff]
    rw [h1, h2]
    norm_num [clampPredicted]

/-- Witness for C7: both formulas instantiated at latest (1000, t = 0),
target time 86400 and average block time 2. -/
theorem hfPrediction_formula_witness :
    heimdallHfMain 1000 0 86400 2 =
      .predicted ⌊((86400 : ℚ) - 0) / 2⌋ (1000 + ⌊((86400 : ℚ) - 0) / 2⌋) ∧
    borHfMain 1000 0 86400 2 =
      ⟨(86400 : ℚ) - 0, round (((86400 : ℚ) - 0) / 2),
        (1000 : Int) + round (((86400 : ℚ) - 0) / 2)⟩ :=
  ⟨hfPrediction_formula.1 1000 0 86400 2 (by norm_num) (by norm_num),
    hfPrediction_formula.2.1 1000 0 86400 2 (by norm_num) (by norm_num)⟩

/-- C10: the rounding-variant predictor never emits a negative height: the
clamp yields exactly the maximum of zero and latest plus delta, the main
function prints the clamped value, and a far-past target is clamped to
zero, so the uint64 conversion at the print site never receives a negative
number. -/
theorem borHf_clamp_nonneg :
    (∀ (n : Nat) (b : Int), 0 ≤ clampPredicted n b) ∧
    (∀ (n : Nat) (b : Int), clampPredicted n b = max 0 ((n : Int) + b)) ∧
    (∀ (n : Nat) (nowT tt avg : ℚ),
      (borHfMain n nowT tt avg).predictedHeight =
        clampPredicted n (borHfMain n nowT tt avg).blocksRounded) ∧
    0 ≤ (borHfMain 1000 0 (-1000000) 2).predictedHeight ∧
    (borHfMain 1000 0 (-1000000) 2).predictedHeight = 0 := by
  have hph : (borHfMain 1000 0 (-1000000) 2).predictedHeight = 0 := by
    show clampPredicted 1000 (goRound (((-1000000 : ℚ) - 0) / 2)) = 0
    have h1 : (((-1000000 : ℚ) - 0) / 2) = -500000 := by norm_num
    have h2 : goRound (-500000 : ℚ) = -500000 := by
      rw [goRound, if_pos (by norm_num)]
      have h3 : ⌊-(-500000 : ℚ) + 1/2⌋ = 500000 := by norm_num [Int.floor_eq_iff]
      rw [h3]
    rw [h1, h2]
    decide
  refine ⟨?_, ?_, ?_, le_of_eq hph.symm, hph⟩
  · intro n b
    simp only [clampPredicted]
    split <;> omega
  · intro n b
    simp only [clampPredicted]
    rcases le_or_lt 0 ((n : Int) + b) with hle | hlt
    · rw [if_neg (not_lt.mpr hle), max_eq_right hle]
    · rw [if_pos hlt, max_eq_left (by omega)]
  · intro n nowT tt avg
    rfl

/-! ## Claims about the block time estimator -/

/-- C9 counterexample: with latest (2000, t = 3001 s), reference time 0 at
height 0 and target block 2001, the exact seconds left are 3001/2000, yet
the estimator adds only one whole second: the printed time is 3002, not
3001 plus 3001/2000. -/
theorem estimator_truncation_cex :
    (estimatorMain 2000 3001 0 2001).estimatedTime = 3002 ∧
    (estimatorMain 2000 3001 0 2001).estimatedTime ≠
      3001 + (estimatorMain 2000 3001 0 2001).secondsLeft := by
  have hq : ((3001 : ℚ) - 0) / 2000 * ((2001 - 2000 : Int) : ℚ) = 3001 / 2000 := by
    norm_num
  have hsl : (estimatorMain 2000 3001 0 2001).secondsLeft = 3001 / 2000 := hq
  have htr : goTrunc ((3001 : ℚ) / 2000) = 1 := by
    rw [goTrunc, if_neg (by norm_num)]
    norm_num [Int.floor_eq_iff]
  have het : (estimatorMain 2000 3001 0 2001).estimatedTime = 3002 := by
    show (3001 : ℚ) +
      ((goTrunc (((3001 : ℚ) - 0) / 2000 * ((2001 - 2000 : Int) : ℚ)) : Int) : ℚ) = 3002
    rw [hq, htr]
    norm_num
  refine ⟨het, ?_⟩
  rw [het, hsl]
  norm_num

/-- C9 (amended): the estimator computes the average block time as the
elapsed seconds over 2000 blocks, the blocks left as target minus latest
height, and the seconds left as their product, exactly as claimed; the
estimated time, however, is the latest time plus the seconds left
truncated toward zero to whole seconds by the Duration conversion. -/
theorem estimator_formula (h1 : Int) (t1 t2 : ℚ) (targetBlock : Int) :
    (estimatorMain h1 t1 t2 targetBlock).avgBlockTime = (t1 - t2) / 2000 ∧
    (estimatorMain h1 t1 t2 targetBlock).blocksLeft = targetBlock - h1 ∧
    (estimatorMain h1 t1 t2 targetBlock).secondsLeft =
      (t1 - t2) / 2000 * ((targetBlock - h1 : Int) : ℚ) ∧
    (estimatorMain h1 t1 t2 targetBlock).estimatedTime =
      t1 + ((goTrunc ((t1 - t2) / 2000 * ((targetBlock - h1 : Int) : ℚ)) : Int) : ℚ) :=
  ⟨rfl, rfl, rfl, rfl⟩

end ChainUtils
